import Mathlib

/-!
Verification development for the `envvars` data layer of nitishm/hippo.

The repository fragment under verification is the Django migration
`src/envvars/migrations/0001_initial.py`, which creates the
`EnvironmentVariable` model:

  - `uuid`    : UUIDField, primary key, default `uuid.uuid4`, generated at
                creation, not editable;
  - `created` : DateTimeField with `auto_now_add=True` (set once on insert);
  - `updated` : DateTimeField with `auto_now=True` (refreshed on every save);
  - `key`     : CharField, `max_length=100`;
  - `value`   : CharField, `max_length=1000`;
  - `owner`   : ForeignKey to `apps.app` with `on_delete=CASCADE`;

together with the composite uniqueness constraint
`UniqueConstraint(fields=('owner', 'key'), name='envvar_is_unique')`.

The store operations themselves (Create, Update, Get, List, Delete,
CascadeDeleteByOwner) are not part of the fragment; they are modelled from
the specification's Config Store component, against the schema above.
UUIDs and owner references are modelled as natural numbers (a fresh-id
counter stands in for the `uuid.uuid4` generator), and timestamps as
natural numbers drawn from a strictly monotone store clock.
-/

/-- One `EnvironmentVariable` row, following the migration's field list:
`uuid` (primary key, generated), `created` and `updated` (timestamps),
`key` and `value` (text), `owner` (foreign key to an App). -/
structure EnvVar where
  uuid : Nat
  created : Nat
  updated : Nat
  key : String
  value : String
  owner : Nat
deriving DecidableEq, Repr

/-- Modelled from the spec: the durable Config Store holding the
`EnvironmentVariable` records.  `nextId` models the fresh-UUID generator
(`uuid.uuid4` in the migration's default), and `clock` models the wall
clock that stamps `auto_now_add` / `auto_now` timestamps; it ticks on
every mutation, so timestamps of successive mutations strictly increase. -/
structure Store where
  records : List EnvVar
  nextId : Nat
  clock : Nat
deriving DecidableEq, Repr

/-- Modelled from the spec: the store with no records. -/
def Store.empty : Store := { records := [], nextId := 0, clock := 0 }

/-- Modelled from the spec: the two surfaced error kinds of the Config
Store: `ConflictError` (Create on an existing `(owner, key)`) and
`NotFoundError` (Update/Get/Delete on a missing `(owner, key)`). -/
inductive StoreError where
  | conflictError : StoreError
  | notFoundError : StoreError
deriving DecidableEq, Repr

/-- Look up the record with the given `(owner, key)` pair, if any. -/
def Store.find (s : Store) (o : Nat) (k : String) : Option EnvVar :=
  s.records.find? (fun r => r.owner == o && r.key == k)

/-- Modelled from the spec: `Create(owner, key, value)`.  Fails with
`ConflictError` when `(owner, key)` already exists (the store is returned
unchanged); otherwise inserts a new record with a generated identifier and
creation timestamp (`auto_now_add` also initialises `updated`). -/
def Store.create (s : Store) (o : Nat) (k v : String) :
    Store × Except StoreError EnvVar :=
  match s.find o k with
  | some _ => (s, .error .conflictError)
  | none =>
    let t := s.clock + 1
    let r : EnvVar :=
      { uuid := s.nextId, created := t, updated := t, key := k, value := v,
        owner := o }
    ({ records := r :: s.records, nextId := s.nextId + 1, clock := t },
     .ok r)

/-- The per-record effect of `Update(o, k, v)` at time `t`: the record
with the matching `(owner, key)` gets the new `value` and a refreshed
`updated` timestamp; every other record is returned unchanged. -/
def updFun (o : Nat) (k v : String) (t : Nat) (r : EnvVar) : EnvVar :=
  if r.owner == o && r.key == k then { r with value := v, updated := t }
  else r

/-- Modelled from the spec: `Update(owner, key, value)`.  Fails with
`NotFoundError` when no such record exists (the store is returned
unchanged); otherwise rewrites the record's `value` and refreshes its
`updated` timestamp (`auto_now`), leaving every other record untouched. -/
def Store.update (s : Store) (o : Nat) (k v : String) :
    Store × Except StoreError Unit :=
  match s.find o k with
  | none => (s, .error .notFoundError)
  | some _ =>
    let t := s.clock + 1
    ({ s with
        clock := t,
        records := s.records.map (updFun o k v t) },
     .ok ())

/-- Modelled from the spec: `Get(owner, key)`.  A pure query: returns the
record, or fails with `NotFoundError`. -/
def Store.get (s : Store) (o : Nat) (k : String) : Except StoreError EnvVar :=
  match s.find o k with
  | none => .error .notFoundError
  | some r => .ok r

/-- Modelled from the spec: `Delete(owner, key)` in its strict variant:
fails with `NotFoundError` when no such record exists (the store is
returned unchanged); otherwise removes exactly that record. -/
def Store.delete (s : Store) (o : Nat) (k : String) :
    Store × Except StoreError Unit :=
  match s.find o k with
  | none => (s, .error .notFoundError)
  | some _ =>
    ({ s with
        records := s.records.filter (fun r => !(r.owner == o && r.key == k)) },
     .ok ())

/-- Modelled from the spec: `CascadeDeleteByOwner(owner)`, the cascade
triggered by deleting the owning App (`on_delete=CASCADE` in the
migration): removes every record of that owner. -/
def Store.cascadeDeleteByOwner (s : Store) (o : Nat) : Store :=
  { s with records := s.records.filter (fun r => r.owner != o) }

/-- The composite uniqueness constraint of the migration, named
`envvar_is_unique` there: no two distinct records share the same
`(owner, key)` pair. -/
def envvar_is_unique (s : Store) : Prop :=
  s.records.Pairwise (fun r1 r2 => ¬(r1.owner = r2.owner ∧ r1.key = r2.key))

/-- The length limits of the migration's CharFields: `key` has
`max_length=100` and `value` has `max_length=1000`. -/
def validLengths (s : Store) : Prop :=
  ∀ r ∈ s.records, r.key.length ≤ 100 ∧ r.value.length ≤ 1000

/-- Internal well-formedness of a store: the uniqueness constraint, the
freshness bound on generated identifiers, pairwise-distinct identifiers,
and the clock bounding all timestamps. -/
structure Store.WF (s : Store) : Prop where
  unique : envvar_is_unique s
  uuidLt : ∀ r ∈ s.records, r.uuid < s.nextId
  uuidDistinct : s.records.Pairwise (fun r1 r2 => r1.uuid ≠ r2.uuid)
  clockLe : ∀ r ∈ s.records, r.created ≤ s.clock ∧ r.updated ≤ s.clock

/-- Modelled from the spec: the states of the Config Store reachable from
the empty store by the mutating operations (a failing mutation returns the
original store, so failures do not add reachable states). -/
inductive Store.Reachable : Store → Prop where
  | empty : Store.Reachable Store.empty
  | create (s : Store) (o : Nat) (k v : String) :
      Store.Reachable s → Store.Reachable (s.create o k v).1
  | update (s : Store) (o : Nat) (k v : String) :
      Store.Reachable s → Store.Reachable (s.update o k v).1
  | delete (s : Store) (o : Nat) (k : String) :
      Store.Reachable s → Store.Reachable (s.delete o k).1
  | cascade (s : Store) (o : Nat) :
      Store.Reachable s → Store.Reachable (s.cascadeDeleteByOwner o)

theorem find_eq_none_iff (s : Store) (o : Nat) (k : String) :
    s.find o k = none ↔ ∀ r ∈ s.records, ¬(r.owner = o ∧ r.key = k) := by
  simp [Store.find, List.find?_eq_none, not_and]

theorem find_some_spec {s : Store} {o : Nat} {k : String} {r : EnvVar}
    (h : s.find o k = some r) : r ∈ s.records ∧ r.owner = o ∧ r.key = k := by
  refine ⟨List.mem_of_find?_eq_some h, ?_⟩
  have h2 := List.find?_some h
  simpa using h2

theorem updFun_owner (o : Nat) (k v : String) (t : Nat) (r : EnvVar) :
    (updFun o k v t r).owner = r.owner := by
  unfold updFun; split <;> rfl

theorem updFun_key (o : Nat) (k v : String) (t : Nat) (r : EnvVar) :
    (updFun o k v t r).key = r.key := by
  unfold updFun; split <;> rfl

theorem updFun_uuid (o : Nat) (k v : String) (t : Nat) (r : EnvVar) :
    (updFun o k v t r).uuid = r.uuid := by
  unfold updFun; split <;> rfl

theorem updFun_created (o : Nat) (k v : String) (t : Nat) (r : EnvVar) :
    (updFun o k v t r).created = r.created := by
  unfold updFun; split <;> rfl

theorem updFun_of_not_match (o : Nat) (k v : String) (t : Nat) (r : EnvVar)
    (h : ¬(r.owner = o ∧ r.key = k)) : updFun o k v t r = r := by
  unfold updFun
  split
  · rename_i hb
    simp only [Bool.and_eq_true, beq_iff_eq] at hb
    exact absurd hb h
  · rfl

theorem updFun_of_match (o : Nat) (k v : String) (t : Nat) (r : EnvVar)
    (ho : r.owner = o) (hk : r.key = k) :
    updFun o k v t r = { r with value := v, updated := t } := by
  unfold updFun
  split
  · rfl
  · rename_i hb
    simp only [Bool.and_eq_true, beq_iff_eq] at hb
    exact absurd ⟨ho, hk⟩ hb

theorem WF_empty : Store.empty.WF := by
  constructor <;> simp [Store.empty, envvar_is_unique]

theorem WF_create (s : Store) (o : Nat) (k v : String) (h : s.WF) :
    (s.create o k v).1.WF := by
  rcases hf : s.find o k with _ | r0
  · have hnone := (find_eq_none_iff s o k).1 hf
    simp only [Store.create, hf]
    constructor
    · unfold envvar_is_unique
      refine List.pairwise_cons.2 ⟨?_, h.unique⟩
      intro r' hr'
      intro hc
      exact hnone r' hr' ⟨hc.1.symm, hc.2.symm⟩
    · intro r hr
      rcases List.mem_cons.1 hr with rfl | hr
      · exact Nat.lt_succ_self _
      · exact Nat.lt_trans (h.uuidLt r hr) (Nat.lt_succ_self _)
    · refine List.pairwise_cons.2 ⟨?_, h.uuidDistinct⟩
      intro r' hr'
      exact Nat.ne_of_gt (h.uuidLt r' hr')
    · intro r hr
      rcases List.mem_cons.1 hr with rfl | hr
      · exact ⟨Nat.le_refl _, Nat.le_refl _⟩
      · exact ⟨Nat.le_succ_of_le (h.clockLe r hr).1,
               Nat.le_succ_of_le (h.clockLe r hr).2⟩
  · simp only [Store.create, hf]
    exact h

theorem WF_update (s : Store) (o : Nat) (k v : String) (h : s.WF) :
    (s.update o k v).1.WF := by
  rcases hf : s.find o k with _ | r0
  · simp only [Store.update, hf]
    exact h
  · simp only [Store.update, hf]
    constructor
    · unfold envvar_is_unique
      refine List.Pairwise.map _ ?_ h.unique
      intro a b hab hc
      rw [updFun_owner, updFun_owner, updFun_key, updFun_key] at hc
      exact hab hc
    · intro r hr
      rcases List.mem_map.1 hr with ⟨a, ha, rfl⟩
      rw [updFun_uuid]
      exact h.uuidLt a ha
    · refine List.Pairwise.map _ ?_ h.uuidDistinct
      intro a b hab
      rw [updFun_uuid, updFun_uuid]
      exact hab
    · intro r hr
      rcases List.mem_map.1 hr with ⟨a, ha, rfl⟩
      constructor
      · rw [updFun_created]
        exact Nat.le_succ_of_le (h.clockLe a ha).1
      · unfold updFun
        split
        · exact Nat.le_refl _
        · exact Nat.le_succ_of_le (h.clockLe a ha).2

theorem WF_delete (s : Store) (o : Nat) (k : String) (h : s.WF) :
    (s.delete o k).1.WF := by
  rcases hf : s.find o k with _ | r0
  · simp only [Store.delete, hf]
    exact h
  · simp only [Store.delete, hf]
    constructor
    · exact h.unique.sublist (List.filter_sublist _)
    · intro r hr
      exact h.uuidLt r (List.mem_of_mem_filter hr)
    · exact h.uuidDistinct.sublist (List.filter_sublist _)
    · intro r hr
      exact h.clockLe r (List.mem_of_mem_filter hr)

theorem WF_cascade (s : Store) (o : Nat) (h : s.WF) :
    (s.cascadeDeleteByOwner o).WF := by
  constructor
  · exact h.unique.sublist (List.filter_sublist _)
  · intro r hr
    exact h.uuidLt r (List.mem_of_mem_filter hr)
  · exact h.uuidDistinct.sublist (List.filter_sublist _)
  · intro r hr
    exact h.clockLe r (List.mem_of_mem_filter hr)

theorem Reachable_WF {s : Store} (h : Store.Reachable s) : s.WF := by
  induction h with
  | empty => exact WF_empty
  | create s o k v _ ih => exact WF_create s o k v ih
  | update s o k v _ ih => exact WF_update s o k v ih
  | delete s o k _ ih => exact WF_delete s o k ih
  | cascade s o _ ih => exact WF_cascade s o ih


theorem create_eq_of_find_some {s : Store} {o : Nat} {k : String}
    {r0 : EnvVar} (hf : s.find o k = some r0) (v : String) :
    s.create o k v = (s, Except.error StoreError.conflictError) := by
  simp [Store.create, hf]

theorem create_eq_of_find_none {s : Store} {o : Nat} {k : String}
    (hf : s.find o k = none) (v : String) :
    s.create o k v =
      ({ records := { uuid := s.nextId, created := s.clock + 1,
                      updated := s.clock + 1, key := k, value := v,
                      owner := o } :: s.records,
         nextId := s.nextId + 1, clock := s.clock + 1 },
       Except.ok { uuid := s.nextId, created := s.clock + 1,
                   updated := s.clock + 1, key := k, value := v,
                   owner := o }) := by
  simp [Store.create, hf]

theorem update_eq_of_find_some {s : Store} {o : Nat} {k : String}
    {r0 : EnvVar} (hf : s.find o k = some r0) (v : String) :
    s.update o k v =
      ({ s with clock := s.clock + 1,
                records := s.records.map (updFun o k v (s.clock + 1)) },
       Except.ok ()) := by
  simp [Store.update, hf]

theorem update_eq_of_find_none {s : Store} {o : Nat} {k : String}
    (hf : s.find o k = none) (v : String) :
    s.update o k v = (s, Except.error StoreError.notFoundError) := by
  simp [Store.update, hf]

theorem get_eq_of_find_some {s : Store} {o : Nat} {k : String} {r0 : EnvVar}
    (hf : s.find o k = some r0) : s.get o k = Except.ok r0 := by
  simp [Store.get, hf]

theorem get_eq_of_find_none {s : Store} {o : Nat} {k : String}
    (hf : s.find o k = none) :
    s.get o k = Except.error StoreError.notFoundError := by
  simp [Store.get, hf]

theorem delete_eq_of_find_some {s : Store} {o : Nat} {k : String}
    {r0 : EnvVar} (hf : s.find o k = some r0) :
    s.delete o k =
      ({ s with records :=
            s.records.filter (fun r => !(r.owner == o && r.key == k)) },
       Except.ok ()) := by
  simp [Store.delete, hf]

theorem delete_eq_of_find_none {s : Store} {o : Nat} {k : String}
    (hf : s.find o k = none) :
    s.delete o k = (s, Except.error StoreError.notFoundError) := by
  simp [Store.delete, hf]

theorem find_create_self (s : Store) (o : Nat) (k v : String)
    (hf : s.find o k = none) :
    (s.create o k v).1.find o k =
      some { uuid := s.nextId, created := s.clock + 1, updated := s.clock + 1,
             key := k, value := v, owner := o } := by
  rw [create_eq_of_find_none hf v]
  show List.find? _ _ = _
  exact List.find?_cons_of_pos _ (by simp)

/-- C1: in every reachable state of the store, the pair `(owner, key)` is
unique across all `EnvironmentVariable` records — no owner has two records
with the same key.  The invariant is maintained by every operation
(Create, Update, Delete, CascadeDeleteByOwner), matching the composite
uniqueness constraint `envvar_is_unique` of the migration. -/
theorem C1_envvar_is_unique_invariant (s : Store) (h : Store.Reachable s) :
    envvar_is_unique s :=
  (Reachable_WF h).unique

theorem C1_envvar_is_unique_invariant_witness :
    envvar_is_unique ((Store.empty.create 1 "A" "x").1.create 2 "A" "y").1 :=
  C1_envvar_is_unique_invariant _
    (Store.Reachable.create _ 2 "A" "y"
      (Store.Reachable.create _ 1 "A" "x" Store.Reachable.empty))

/-- C2: `Create(owner, key, value)` fails with `ConflictError` exactly
when a record with the same `(owner, key)` already exists, leaving the
store unchanged; otherwise it succeeds and inserts a new record with a
generated identifier and creation timestamp.  In particular a successful
`Create(o, k, v1)` followed by `Create(o, k, v2)` fails with
`ConflictError` and leaves the state unchanged. -/
theorem C2_create_conflict (s : Store) (o : Nat) (k v v1 v2 : String) :
    ((s.create o k v).2 = Except.error StoreError.conflictError ↔
      (s.find o k).isSome = true)
    ∧ ((s.create o k v).2 = Except.error StoreError.conflictError →
        (s.create o k v).1 = s)
    ∧ ((s.find o k).isSome = false →
        ∃ r, (s.create o k v).2 = Except.ok r
          ∧ (s.create o k v).1.records = r :: s.records
          ∧ r.owner = o ∧ r.key = k ∧ r.value = v
          ∧ r.uuid = s.nextId ∧ (s.create o k v).1.nextId = s.nextId + 1
          ∧ r.created = s.clock + 1)
    ∧ (∀ r1, (s.create o k v1).2 = Except.ok r1 →
        ((s.create o k v1).1.create o k v2).2 =
            Except.error StoreError.conflictError
        ∧ ((s.create o k v1).1.create o k v2).1 = (s.create o k v1).1) := by
  refine ⟨?_, ?_, ?_, ?_⟩
  · rcases hf : s.find o k with _ | r0
    · rw [create_eq_of_find_none hf v]
      simp
    · rw [create_eq_of_find_some hf v]
      simp
  · rcases hf : s.find o k with _ | r0
    · rw [create_eq_of_find_none hf v]
      simp
    · rw [create_eq_of_find_some hf v]
      simp
  · intro hnone
    rcases hf : s.find o k with _ | r0
    · rw [create_eq_of_find_none hf v]
      exact ⟨_, rfl, rfl, rfl, rfl, rfl, rfl, rfl, rfl⟩
    · rw [hf] at hnone
      simp at hnone
  · intro r1 h1
    rcases hf : s.find o k with _ | r0
    · have hself := find_create_self s o k v1 hf
      rw [create_eq_of_find_some hself v2]
      exact ⟨rfl, rfl⟩
    · rw [create_eq_of_find_some hf v1] at h1
      simp at h1

theorem C2_create_conflict_witness :
    ((Store.empty.create 1 "DEBUG" "true").1.create 1 "DEBUG" "false").2
        = Except.error StoreError.conflictError
    ∧ ((Store.empty.create 1 "DEBUG" "true").1.create 1 "DEBUG" "false").1
        = (Store.empty.create 1 "DEBUG" "true").1 :=
  (C2_create_conflict Store.empty 1 "DEBUG" "x" "true" "false").2.2.2
    { uuid := 0, created := 1, updated := 1, key := "DEBUG", value := "true",
      owner := 1 }
    rfl

/-- C3: if `Create(o, k, v)` succeeds from some state, then `Get(o, k)` in
the resulting state returns the created record, whose value is `v`. -/
theorem C3_create_get_roundtrip (s : Store) (o : Nat) (k v : String)
    (r : EnvVar) (h : (s.create o k v).2 = Except.ok r) :
    (s.create o k v).1.get o k = Except.ok r ∧ r.value = v := by
  rcases hf : s.find o k with _ | r0
  · have hself := find_create_self s o k v hf
    rw [create_eq_of_find_none hf v] at h
    injection h with h
    subst h
    exact ⟨get_eq_of_find_some hself, rfl⟩
  · rw [create_eq_of_find_some hf v] at h
    simp at h

theorem C3_create_get_roundtrip_witness :
    (Store.empty.create 1 "DEBUG" "true").1.get 1 "DEBUG" =
      Except.ok { uuid := 0, created := 1, updated := 1, key := "DEBUG",
                  value := "true", owner := 1 }
    ∧ ({ uuid := 0, created := 1, updated := 1, key := "DEBUG",
         value := "true", owner := 1 : EnvVar }).value = "true" :=
  C3_create_get_roundtrip Store.empty 1 "DEBUG" "true" _ rfl

/-- C4: `CascadeDeleteByOwner(o)` removes exactly the records whose owner
is `o`: afterwards no record with owner `o` remains, every record of any
other owner is still present (unchanged), and no record is invented. -/
theorem C4_cascade_delete_exact (s : Store) (o : Nat) :
    (∀ r ∈ (s.cascadeDeleteByOwner o).records, r.owner ≠ o)
    ∧ (∀ r ∈ s.records, r.owner ≠ o → r ∈ (s.cascadeDeleteByOwner o).records)
    ∧ (∀ r ∈ (s.cascadeDeleteByOwner o).records, r ∈ s.records) := by
  refine ⟨?_, ?_, ?_⟩
  · intro r hr
    have := (List.mem_filter.1 hr).2
    simpa using this
  · intro r hr hne
    exact List.mem_filter.2 ⟨hr, by simpa using hne⟩
  · intro r hr
    exact (List.mem_filter.1 hr).1

theorem C4_cascade_delete_exact_witness :
    ({ uuid := 1, created := 2, updated := 2, key := "B", value := "y",
       owner := 2 : EnvVar } ∈
      (((Store.empty.create 1 "A" "x").1.create 2 "B" "y").1.cascadeDeleteByOwner
          1).records)
    ∧ ¬({ uuid := 1, created := 2, updated := 2, key := "B", value := "y",
          owner := 2 : EnvVar } ∈
        ((((Store.empty.create 1 "A" "x").1.create 2 "B" "y").1.cascadeDeleteByOwner
            1).cascadeDeleteByOwner 2).records) :=
  ⟨(C4_cascade_delete_exact ((Store.empty.create 1 "A" "x").1.create 2 "B" "y").1
      1).2.1 _ (by simp [Store.create, Store.empty, Store.find]) (by decide),
   fun hmem =>
    (C4_cascade_delete_exact
        ((((Store.empty.create 1 "A" "x").1.create 2 "B" "y").1).cascadeDeleteByOwner 1)
        2).1 _ hmem rfl⟩

/-- C6: `Update`, `Get` and `Delete` fail with `NotFoundError` when no
record with the given `(owner, key)` exists, and the failing operations
leave the store unchanged. -/
theorem C6_notFound_ops (s : Store) (o : Nat) (k v : String)
    (h : s.find o k = none) :
    (s.update o k v).2 = Except.error StoreError.notFoundError
    ∧ (s.update o k v).1 = s
    ∧ s.get o k = Except.error StoreError.notFoundError
    ∧ (s.delete o k).2 = Except.error StoreError.notFoundError
    ∧ (s.delete o k).1 = s := by
  rw [update_eq_of_find_none h v, get_eq_of_find_none h,
      delete_eq_of_find_none h]
  exact ⟨rfl, rfl, rfl, rfl, rfl⟩

theorem C6_notFound_ops_witness :
    (Store.empty.update 1 "K" "v").2 = Except.error StoreError.notFoundError
    ∧ (Store.empty.update 1 "K" "v").1 = Store.empty
    ∧ Store.empty.get 1 "K" = Except.error StoreError.notFoundError
    ∧ (Store.empty.delete 1 "K").2 = Except.error StoreError.notFoundError
    ∧ (Store.empty.delete 1 "K").1 = Store.empty :=
  C6_notFound_ops Store.empty 1 "K" "v" rfl

/-- C7: records satisfy the CharField length limits of the migration
(`key` at most 100 characters, `value` at most 1000): the empty store
satisfies them, and each operation — applied to inputs within the data
model's bounds — preserves them. -/
theorem C7_length_limits (s : Store) (o : Nat) (k v : String)
    (hs : validLengths s) (hk : k.length ≤ 100) (hv : v.length ≤ 1000) :
    validLengths Store.empty
    ∧ validLengths (s.create o k v).1
    ∧ validLengths (s.update o k v).1
    ∧ validLengths (s.delete o k).1
    ∧ validLengths (s.cascadeDeleteByOwner o) := by
  refine ⟨?_, ?_, ?_, ?_, ?_⟩
  · intro r hr
    simp [Store.empty] at hr
  · rcases hf : s.find o k with _ | r0
    · rw [create_eq_of_find_none hf v]
      intro r hr
      rcases List.mem_cons.1 hr with rfl | hr
      · exact ⟨hk, hv⟩
      · exact hs r hr
    · rw [create_eq_of_find_some hf v]
      exact hs
  · rcases hf : s.find o k with _ | r0
    · rw [update_eq_of_find_none hf v]
      exact hs
    · rw [update_eq_of_find_some hf v]
      intro r hr
      rcases List.mem_map.1 hr with ⟨a, ha, rfl⟩
      refine ⟨?_, ?_⟩
      · rw [updFun_key]
        exact (hs a ha).1
      · unfold updFun
        split
        · exact hv
        · exact (hs a ha).2
  · rcases hf : s.find o k with _ | r0
    · rw [delete_eq_of_find_none hf]
      exact hs
    · rw [delete_eq_of_find_some hf]
      intro r hr
      exact hs r (List.mem_of_mem_filter hr)
  · intro r hr
    exact hs r (List.mem_of_mem_filter hr)

theorem C7_length_limits_witness :
    validLengths (Store.empty.create 1 "DEBUG" "true").1 :=
  (C7_length_limits Store.empty 1 "DEBUG" "true"
      (fun r hr => by simp [Store.empty] at hr) (by decide) (by decide)).2.1

theorem find_update (s : Store) (o : Nat) (k v : String) {r0 : EnvVar}
    (hf : s.find o k = some r0) :
    (s.update o k v).1.find o k =
      some { r0 with value := v, updated := s.clock + 1 } := by
  rw [update_eq_of_find_some hf v]
  show List.find? _ (List.map _ _) = _
  rw [List.find?_map]
  have hp : ((fun r : EnvVar => r.owner == o && r.key == k) ∘
        updFun o k v (s.clock + 1)) =
      (fun r : EnvVar => r.owner == o && r.key == k) := by
    funext a
    simp [Function.comp, updFun_owner, updFun_key]
  rw [hp]
  show (s.find o k).map _ = _
  rw [hf]
  have hok := find_some_spec hf
  simp only [Option.map_some']
  rw [updFun_of_match o k v (s.clock + 1) r0 hok.2.1 hok.2.2]

/-- C5: after a successful `Create(o, k, v1)`, `Update(o, k, v2)` succeeds
and yields `Get(o, k) == v2`; the record's `updated` timestamp is strictly
greater than before the update, while its `uuid`, `created`, `key` and
`owner` fields are unchanged. -/
theorem C5_update_after_create (s : Store) (o : Nat) (k v1 v2 : String)
    (r1 : EnvVar) (h : (s.create o k v1).2 = Except.ok r1) :
    ((s.create o k v1).1.update o k v2).2 = Except.ok ()
    ∧ ∃ r2, ((s.create o k v1).1.update o k v2).1.get o k = Except.ok r2
        ∧ r2.value = v2
        ∧ r1.updated < r2.updated
        ∧ r2.uuid = r1.uuid ∧ r2.created = r1.created
        ∧ r2.key = r1.key ∧ r2.owner = r1.owner := by
  rcases hf : s.find o k with _ | r0
  · have hself := find_create_self s o k v1 hf
    have hclock : (s.create o k v1).1.clock = s.clock + 1 := by
      rw [create_eq_of_find_none hf v1]
    have hr1 : r1 = { uuid := s.nextId, created := s.clock + 1,
                      updated := s.clock + 1, key := k, value := v1,
                      owner := o } := by
      rw [create_eq_of_find_none hf v1] at h
      injection h with h
      exact h.symm
    have hupd := find_update (s.create o k v1).1 o k v2 hself
    subst hr1
    refine ⟨?_, ?_⟩
    · rw [update_eq_of_find_some hself v2]
    · refine ⟨_, get_eq_of_find_some hupd, rfl, ?_, rfl, rfl, rfl, rfl⟩
      show s.clock + 1 < (s.create o k v1).1.clock + 1
      rw [hclock]
      exact Nat.lt_succ_self _
  · rw [create_eq_of_find_some hf v1] at h
    simp at h

theorem C5_update_after_create_witness :
    ((Store.empty.create 1 "DEBUG" "true").1.update 1 "DEBUG" "false").2 =
      Except.ok () :=
  (C5_update_after_create Store.empty 1 "DEBUG" "true" "false"
    { uuid := 0, created := 1, updated := 1, key := "DEBUG", value := "true",
      owner := 1 }
    rfl).1

/-- C8: the primary key `uuid` is generated at creation (the store's
fresh-identifier source, which then advances), is distinct across all
records of every reachable state, and is immutable: `Update` changes no
record's identifier. -/
theorem C8_uuid_generated_distinct_immutable (s : Store) (o : Nat)
    (k v : String) (h : Store.Reachable s) :
    (s.records.Pairwise fun r1 r2 => r1.uuid ≠ r2.uuid)
    ∧ (∀ r, (s.create o k v).2 = Except.ok r →
        r.uuid = s.nextId ∧ (s.create o k v).1.nextId = s.nextId + 1)
    ∧ ((s.update o k v).1.records.map EnvVar.uuid =
        s.records.map EnvVar.uuid) := by
  refine ⟨(Reachable_WF h).uuidDistinct, ?_, ?_⟩
  · intro r hr
    rcases hf : s.find o k with _ | r0
    · rw [create_eq_of_find_none hf v] at hr ⊢
      injection hr with hr
      subst hr
      exact ⟨rfl, rfl⟩
    · rw [create_eq_of_find_some hf v] at hr
      simp at hr
  · rcases hf : s.find o k with _ | r0
    · rw [update_eq_of_find_none hf v]
    · rw [update_eq_of_find_some hf v]
      show (s.records.map _).map _ = _
      rw [List.map_map]
      apply List.map_congr_left
      intro a _
      exact updFun_uuid o k v (s.clock + 1) a

theorem C8_uuid_generated_distinct_immutable_witness :
    ((Store.empty.create 1 "A" "x").1.create 2 "A" "y").1.records.Pairwise
      (fun r1 r2 => r1.uuid ≠ r2.uuid) :=
  (C8_uuid_generated_distinct_immutable _ 1 "A" "x"
    (Store.Reachable.create _ 2 "A" "y"
      (Store.Reachable.create _ 1 "A" "x" Store.Reachable.empty))).1

/-- C9: frame conditions of the operations.  `Update` never changes any
record's `uuid`, `created`, `key` or `owner`; records not targeted by an
`Update` or `Delete` are wholly unchanged; a successful `Update` refreshes
the `updated` timestamp of the targeted record to the new clock value; and
a cascade delete leaves the records of every other owner unchanged. -/
theorem C9_frame_conditions (s : Store) (o : Nat) (k v : String) :
    ((s.update o k v).1.records.map
        (fun r => (r.uuid, r.created, r.key, r.owner))
      = s.records.map (fun r => (r.uuid, r.created, r.key, r.owner)))
    ∧ (∀ r ∈ s.records, ¬(r.owner = o ∧ r.key = k) →
        r ∈ (s.update o k v).1.records)
    ∧ ((s.update o k v).2 = Except.ok () →
        ∀ r ∈ (s.update o k v).1.records, r.owner = o → r.key = k →
          r.updated = s.clock + 1)
    ∧ (∀ r ∈ s.records, ¬(r.owner = o ∧ r.key = k) →
        r ∈ (s.delete o k).1.records)
    ∧ (∀ r ∈ s.records, r.owner ≠ o →
        r ∈ (s.cascadeDeleteByOwner o).records) := by
  refine ⟨?_, ?_, ?_, ?_, ?_⟩
  · rcases hf : s.find o k with _ | r0
    · rw [update_eq_of_find_none hf v]
    · rw [update_eq_of_find_some hf v]
      show (s.records.map _).map _ = _
      rw [List.map_map]
      apply List.map_congr_left
      intro a _
      simp [Function.comp, updFun_uuid, updFun_created, updFun_key,
            updFun_owner]
  · intro r hr hne
    rcases hf : s.find o k with _ | r0
    · rw [update_eq_of_find_none hf v]
      exact hr
    · rw [update_eq_of_find_some hf v]
      exact List.mem_map.2 ⟨r, hr, updFun_of_not_match o k v _ r hne⟩
  · intro hok r hr ho hk
    rcases hf : s.find o k with _ | r0
    · rw [update_eq_of_find_none hf v] at hok
      simp at hok
    · rw [update_eq_of_find_some hf v] at hr
      rcases List.mem_map.1 hr with ⟨a, _, rfl⟩
      by_cases hm : a.owner = o ∧ a.key = k
      · rw [updFun_of_match o k v _ a hm.1 hm.2]
      · rw [updFun_of_not_match o k v _ a hm] at ho hk ⊢
        exact absurd ⟨ho, hk⟩ hm
  · intro r hr hne
    rcases hf : s.find o k with _ | r0
    · rw [delete_eq_of_find_none hf]
      exact hr
    · rw [delete_eq_of_find_some hf]
      refine List.mem_filter.2 ⟨hr, ?_⟩
      simpa using not_and_or.mp hne
  · intro r hr hne
    exact List.mem_filter.2 ⟨hr, by simpa using hne⟩

theorem C9_frame_conditions_witness :
    { uuid := 1, created := 2, updated := 2, key := "A", value := "y",
      owner := 2 : EnvVar } ∈
      (((Store.empty.create 1 "A" "x").1.create 2 "A" "y").1.update 1 "A"
          "z").1.records :=
  (C9_frame_conditions ((Store.empty.create 1 "A" "x").1.create 2 "A" "y").1
      1 "A" "z").2.1 _
    (by simp [Store.create, Store.empty, Store.find])
    (by decide)

/-- C10: the uniqueness constraint binds only within a single owner: for
distinct owners `o1 ≠ o2` and any key `k`, a state exists that contains a
record for `(o1, k)`, and `Create(o2, k, v2)` succeeds from it, after
which records for `(o1, k)` and `(o2, k)` coexist in the store. -/
theorem C10_uniqueness_per_owner (o1 o2 : Nat) (k v1 v2 : String)
    (hne : o1 ≠ o2) :
    ∃ r1 r2,
      (Store.empty.create o1 k v1).2 = Except.ok r1
      ∧ ((Store.empty.create o1 k v1).1.create o2 k v2).2 = Except.ok r2
      ∧ r1 ∈ ((Store.empty.create o1 k v1).1.create o2 k v2).1.records
      ∧ r2 ∈ ((Store.empty.create o1 k v1).1.create o2 k v2).1.records
      ∧ r1.owner = o1 ∧ r1.key = k ∧ r2.owner = o2 ∧ r2.key = k := by
  have hf0 : Store.empty.find o1 k = none := rfl
  have h1 := create_eq_of_find_none hf0 v1
  have hf1 : (Store.empty.create o1 k v1).1.find o2 k = none := by
    rw [h1]
    show List.find? _ _ = none
    rw [List.find?_cons_of_neg]
    · rfl
    · simpa using hne
  have h2 := create_eq_of_find_none hf1 v2
  rw [h2, h1]
  refine ⟨_, _, rfl, rfl, ?_, ?_, rfl, rfl, rfl, rfl⟩
  · exact List.mem_cons_of_mem _ (List.mem_cons_self _ _)
  · exact List.mem_cons_self _ _

theorem C10_uniqueness_per_owner_witness :
    (1 : Nat) ≠ 2
    ∧ ∃ r1 r2,
        (Store.empty.create 1 "DEBUG" "x").2 = Except.ok r1
        ∧ ((Store.empty.create 1 "DEBUG" "x").1.create 2 "DEBUG" "y").2 =
            Except.ok r2
        ∧ r1 ∈ ((Store.empty.create 1 "DEBUG" "x").1.create 2 "DEBUG"
              "y").1.records
        ∧ r2 ∈ ((Store.empty.create 1 "DEBUG" "x").1.create 2 "DEBUG"
              "y").1.records
        ∧ r1.owner = 1 ∧ r1.key = "DEBUG" ∧ r2.owner = 2
        ∧ r2.key = "DEBUG" :=
  ⟨by decide, C10_uniqueness_per_owner 1 2 "DEBUG" "x" "y" (by decide)⟩
